import Mathlib

/-!
# Verification of the INMET yearly-archive analyser (`src/analyser.py`)

Shallow embedding of the ingestion/normalization pipeline of `analyser.py`:
metadata header reading (`read_metadata`), schema normalization
(`columns_renamer`), hour-string repair (`convert_hours` / its inner
`fix_hour_string`), date/time reconciliation (`fix_data_hora`), body decoding
(`read_data`), bundle processing (`read_zipfile`) and the regional/monthly
aggregation (`media_regional_mensal`).

Modelling conventions:
* machine floats become `ℚ` (exact arithmetic); `NaN`/missing becomes `none`;
* a CSV file is pre-split into lines/fields (the `csv` module and the
  semicolon splitting are the boundary of the model);
* Python exceptions become `Except String` / `Option` failures;
* `str.lower` is modelled on the ASCII + Latin-1 accented repertoire that
  appears in INMET headers (`pyLowerChar`); other Unicode case mappings are
  outside the model;
* `re` patterns are modelled per pattern: every pattern used by the source is
  an anchored prefix match (`re.match`), `$` also accepts one trailing
  newline, and `\d` is modelled as ASCII digits;
* `float(...)` / `pd.to_numeric(errors='coerce')` are modelled by `parseRat`
  (optional sign, integer/fraction digits, optional exponent, surrounding
  whitespace); exotic inputs (`"inf"`, `"nan"`, digit underscores) are outside
  the model;
* `pd.to_datetime(format="%Y-%m-%d %H:%M")` is modelled by `parseTS`,
  following CPython's `strptime` field regexes (`%Y` exactly 4 digits, the
  other fields 1–2 digits with the documented alternatives) plus calendar
  validation.  For this format the regex engine's backtracking never changes
  the outcome of greedy 2-digit matching (after a 1-digit fallback the next
  character is a digit, never the required literal separator), so the
  try-2-else-1 parser below is exactly equivalent;
* `pandas` tables are `header : List String` plus row-major cell lists; a
  column lookup takes the first occurrence of a label.  Files whose renamed
  header contains duplicate labels make real `pandas` raise on selection and
  are excluded by a `Nodup` hypothesis where relevant.
-/

/-! ## String utilities (modelling Python string primitives) -/

/-- Python `str.lower` on the character repertoire of INMET headers
(ASCII letters plus the uppercase accented Latin-1 letters that occur in the
source patterns).  Other characters are returned unchanged. -/
def pyLowerChar (c : Char) : Char :=
  match c with
  | 'A' => 'a' | 'B' => 'b' | 'C' => 'c' | 'D' => 'd' | 'E' => 'e'
  | 'F' => 'f' | 'G' => 'g' | 'H' => 'h' | 'I' => 'i' | 'J' => 'j'
  | 'K' => 'k' | 'L' => 'l' | 'M' => 'm' | 'N' => 'n' | 'O' => 'o'
  | 'P' => 'p' | 'Q' => 'q' | 'R' => 'r' | 'S' => 's' | 'T' => 't'
  | 'U' => 'u' | 'V' => 'v' | 'W' => 'w' | 'X' => 'x' | 'Y' => 'y'
  | 'Z' => 'z'
  | 'Á' => 'á' | 'À' => 'à' | 'Â' => 'â' | 'Ã' => 'ã'
  | 'Ç' => 'ç' | 'É' => 'é' | 'Ê' => 'ê' | 'Í' => 'í'
  | 'Ó' => 'ó' | 'Ô' => 'ô' | 'Õ' => 'õ' | 'Ú' => 'ú' | 'Ü' => 'ü'
  | other => other

/-- Python `str.lower` lifted to strings (`name.lower()`). -/
def pyLower (s : String) : String := ⟨s.data.map pyLowerChar⟩

/-- Single-character `str.replace` (the source only replaces `/`→`-` and
`,`→`.`). -/
def replaceChar (a b : Char) (s : String) : String :=
  ⟨s.data.map (fun c => if c = a then b else c)⟩

/-- `s[:n]` (Python slicing by code points). -/
def strTake (n : Nat) (s : String) : String := ⟨s.data.take n⟩

/-- `s[n:]`. -/
def strDrop (n : Nat) (s : String) : String := ⟨s.data.drop n⟩

/-- Python whitespace (the characters stripped by `float()`). -/
def isPySpace (c : Char) : Bool :=
  c = ' ' || c = '\t' || c = '\n' || c = '\r' || c = '\x0b' || c = '\x0c'

/-- Python `str.strip()` as performed implicitly by `float(...)`. -/
def pyStrip (s : String) : String :=
  ⟨((s.data.dropWhile isPySpace).reverse.dropWhile isPySpace).reverse⟩

/-- `s.startswith(p)`. -/
def strStartsWith (s p : String) : Bool := p.data.isPrefixOf s.data

/-- `s.endswith(p)`. -/
def strEndsWith (s p : String) : Bool := p.data.isSuffixOf s.data

/-- `l[i]` as an option (no exception model needed at the call sites). -/
def nth? {α : Type} : List α → Nat → Option α
  | [], _ => none
  | a :: _, 0 => some a
  | _ :: t, n + 1 => nth? t n

/-- Index of the first occurrence of `c` (used for first-occurrence column
lookup in the table model). -/
def idxOf? (c : String) : List String → Option Nat
  | [] => none
  | h :: t => if h = c then some 0 else (idxOf? c t).map (· + 1)

/-! ## `columns_renamer` (SchemaNormalizer) -/

/-- One position of a modelled regex: the list of characters accepted there.
A pattern is a list of positions and matches a *prefix* of the subject,
exactly like `re.match` with no end anchor. -/
def matchesPat : List (List Char) → List Char → Bool
  | [], _ => true
  | _ :: _, [] => false
  | ds :: ps, c :: cs => ds.contains c && matchesPat ps cs

/-- Literal part of a pattern. -/
def lit (s : String) : List (List Char) := s.data.map (fun c => [c])

/-- Character-class part of a pattern (e.g. `[çc]`). -/
def cls (cs : List Char) : List (List Char) := [cs]

/-- The ordered rule list of `columns_renamer`, one `(pattern, canonical
name)` pair per `re.match` line of the source, in source order
(first match wins). -/
def renameRules : List (List (List Char) × String) :=
  [ (lit "data", "data"),
    (lit "hora", "hora"),
    (lit "precipita" ++ cls ['ç', 'c'] ++ cls ['ã', 'a'] ++ lit "o", "precipitacao"),
    (lit "press" ++ cls ['ã', 'a'] ++ lit "o atmosf" ++ cls ['é', 'e'] ++
       lit "rica ao n" ++ cls ['í', 'i'] ++ lit "vel", "pressao_atmosferica"),
    (lit "press" ++ cls ['ã', 'a'] ++ lit "o atmosf" ++ cls ['é', 'e'] ++
       lit "rica m" ++ cls ['á', 'a'] ++ lit "x", "pressao_atmosferica_maxima"),
    (lit "press" ++ cls ['ã', 'a'] ++ lit "o atmosf" ++ cls ['é', 'e'] ++
       lit "rica m" ++ cls ['í', 'i'] ++ lit "n", "pressao_atmosferica_minima"),
    (lit "radia" ++ cls ['ç', 'c'] ++ cls ['ã', 'a'] ++ lit "o", "radiacao"),
    (lit "temperatura do ar", "temperatura_ar"),
    (lit "temperatura do ponto de orvalho", "temperatura_orvalho"),
    (lit "temperatura m" ++ cls ['á', 'a'] ++ lit "x", "temperatura_maxima"),
    (lit "temperatura m" ++ cls ['í', 'i'] ++ lit "n", "temperatura_minima"),
    (lit "temperatura orvalho m" ++ cls ['á', 'a'] ++ lit "x", "temperatura_orvalho_maxima"),
    (lit "temperatura orvalho m" ++ cls ['í', 'i'] ++ lit "n", "temperatura_orvalho_minima"),
    (lit "umidade rel. m" ++ cls ['á', 'a'] ++ lit "x", "umidade_relativa_maxima"),
    (lit "umidade rel. m" ++ cls ['í', 'i'] ++ lit "n", "umidade_relativa_minima"),
    (lit "umidade relativa do ar", "umidade_relativa"),
    (lit "vento, dire" ++ cls ['ç', 'c'] ++ cls ['ã', 'a'] ++ lit "o", "vento_direcao"),
    (lit "vento, rajada", "vento_rajada"),
    (lit "vento, velocidade", "vento_velocidade") ]

/-- The if-chain of `columns_renamer` after the initial `name.lower()`:
first matching rule wins, otherwise the (already lowered) name passes
through unchanged. -/
def renameLower (n : String) : String :=
  match renameRules.find? (fun r => matchesPat r.1 n.data) with
  | some r => r.2
  | none => n

/-- `columns_renamer` from the source: lower-case, then dispatch on the
ordered pattern list. -/
def columns_renamer (name : String) : String :=
  renameLower (pyLower name)

/-! ## `convert_hours` (hour-string repair) -/

/-- Python `$`: end of string, or just before a single trailing newline. -/
def endsOk : List Char → Bool
  | [] => true
  | ['\n'] => true
  | _ => false

/-- `re.match(r"^\d{2}\:\d{2}$", hour)`. -/
def patHHMMb (s : String) : Bool :=
  match s.data with
  | a :: b :: c :: d :: e :: rest =>
    a.isDigit && b.isDigit && c = ':' && d.isDigit && e.isDigit && endsOk rest
  | _ => false

/-- `re.match(r"^\d{4}$", hour)`. -/
def pat4b (s : String) : Bool :=
  match s.data with
  | a :: b :: c :: d :: rest =>
    a.isDigit && b.isDigit && c.isDigit && d.isDigit && endsOk rest
  | _ => false

/-- `re.match(r"^\d{2} UTC$", hour)`. -/
def patUTCb (s : String) : Bool :=
  match s.data with
  | a :: b :: c :: d :: e :: f :: rest =>
    a.isDigit && b.isDigit && c = ' ' && d = 'U' && e = 'T' && f = 'C' && endsOk rest
  | _ => false

/-- `re.match(r"^\d{2}", hour)` (unanchored at the end: just a leading
two-digit run). -/
def lead2b (s : String) : Bool :=
  match s.data with
  | a :: b :: _ => a.isDigit && b.isDigit
  | _ => false

/-- Inner `fix_hour_string` of `convert_hours`: the four-step fallback chain,
in source order. -/
def fix_hour_string (hour : String) : String :=
  if patHHMMb hour then hour
  else if pat4b hour then strTake 2 hour ++ ":" ++ strDrop 2 hour
  else if patUTCb hour then strTake 2 hour ++ ":00"
  else if lead2b hour then strTake 2 hour ++ ":00"
  else "00:00"

/-- `convert_hours` applies `fix_hour_string` elementwise
(`hours.apply(fix_hour_string)`). -/
def convert_hours (hours : List String) : List String :=
  hours.map fix_hour_string

/-- `convert_dates` cellwise: `dates.str.replace("/", "-")`. -/
def convert_date (s : String) : String := replaceChar '/' '-' s

/-- `convert_dates` on a whole column. -/
def convert_dates (dates : List String) : List String :=
  dates.map convert_date

/-! ## Numeric parsing (`float` / `pd.to_numeric(errors='coerce')`) -/

/-- Take a maximal run of leading decimal digits (as digit values). -/
def takeDigits : List Char → List Nat × List Char
  | [] => ([], [])
  | c :: cs =>
    if c.isDigit then
      let p := takeDigits cs
      ((c.toNat - 48) :: p.1, p.2)
    else ([], c :: cs)

/-- Value of a digit-value list read left to right. -/
def digitsVal (ds : List Nat) : Nat := ds.foldl (fun a d => a * 10 + d) 0

/-- Parse the optional exponent suffix (`e`/`E`, optional sign, digits). -/
def parseExpPart (cs : List Char) : Option ℤ :=
  match cs with
  | [] => some 0
  | 'e' :: r | 'E' :: r =>
    match r with
    | '+' :: t =>
      match takeDigits t with
      | ([], _) => none
      | (ds, []) => some (digitsVal ds : ℤ)
      | (_, _ :: _) => none
    | '-' :: t =>
      match takeDigits t with
      | ([], _) => none
      | (ds, []) => some (-(digitsVal ds : ℤ))
      | (_, _ :: _) => none
    | t =>
      match takeDigits t with
      | ([], _) => none
      | (ds, []) => some (digitsVal ds : ℤ)
      | (_, _ :: _) => none
  | _ => none

/-- Powers of ten by plain recursion (kernel-evaluable). -/
def pow10 : Nat → Nat
  | 0 => 1
  | n + 1 => 10 * pow10 n

/-- Decimal literal after the optional sign: digits, optional `.digits`,
optional exponent.  At least one digit must appear before the exponent.
The value `m.f * 10^e` is assembled with `mkRat` over `Nat` arithmetic so
that the kernel can evaluate it. -/
def parseRatBody (cs : List Char) : Option ℚ :=
  let ip := takeDigits cs
  let fp : List Nat × List Char :=
    match ip.2 with
    | '.' :: r => takeDigits r
    | r => ([], r)
  if ip.1 = [] ∧ fp.1 = [] then none
  else
    match parseExpPart fp.2 with
    | none => none
    | some e =>
      let n : Nat := digitsVal (ip.1 ++ fp.1)
      let fl : Nat := fp.1.length
      match e with
      | .ofNat k => some (mkRat (Int.ofNat (n * pow10 k)) (pow10 fl))
      | .negSucc k => some (mkRat (Int.ofNat n) (pow10 fl * pow10 (k + 1)))

/-- Model of Python `float(s)` and of `pd.to_numeric(s, errors='coerce')` on a
single cell: surrounding whitespace stripped, optional sign, decimal digits
with optional fraction and exponent.  (`inf`/`nan` words and digit
underscores are outside the model.)  `none` models both `ValueError` and the
coerced `NaN`. -/
def parseRat (s : String) : Option ℚ :=
  match (pyStrip s).data with
  | '+' :: r => parseRatBody r
  | '-' :: r => (parseRatBody r).map (fun q => -q)
  | r => parseRatBody r

/-! ## Timestamp parsing (`pd.to_datetime(..., format="%Y-%m-%d %H:%M")`) -/

/-- A parsed timestamp at minute precision. -/
structure TS where
  year : Nat
  month : Nat
  day : Nat
  hour : Nat
  minute : Nat
deriving DecidableEq

/-- One digit character. -/
def digitVal? (c : Char) : Option Nat :=
  if c.isDigit then some (c.toNat - 48) else none

/-- `%Y`: exactly four digits (CPython `_strptime` uses `\d\d\d\d`). -/
def parse4Digits : List Char → Option (Nat × List Char)
  | a :: b :: c :: d :: rest =>
    match digitVal? a, digitVal? b, digitVal? c, digitVal? d with
    | some x, some y, some z, some w => some (x * 1000 + y * 100 + z * 10 + w, rest)
    | _, _, _, _ => none
  | _ => none

/-- A 1–2 digit `strptime` field: the two-digit alternatives are tried first
(`valid2` encodes the union of the two-digit regex alternatives), then the
single-digit alternative (`valid1`).  Equivalent to the regex with
backtracking for this format (see the header comment). -/
def parseField (valid2 valid1 : Nat → Bool) : List Char → Option (Nat × List Char)
  | [] => none
  | a :: rest1 =>
    match digitVal? a with
    | none => none
    | some x =>
      match rest1 with
      | b :: rest2 =>
        match digitVal? b with
        | some y =>
          if valid2 (x * 10 + y) then some (x * 10 + y, rest2)
          else if valid1 x then some (x, rest1)
          else none
        | none => if valid1 x then some (x, rest1) else none
      | [] => if valid1 x then some (x, []) else none

/-- Literal separator. -/
def lit1 (c : Char) : List Char → Option (List Char)
  | x :: rest => if x = c then some rest else none
  | [] => none

/-- Gregorian leap year. -/
def isLeap (y : Nat) : Bool :=
  (y % 4 = 0 && y % 100 ≠ 0) || y % 400 = 0

/-- Days in a month (as validated by `datetime` construction). -/
def daysInMonth (y m : Nat) : Nat :=
  match m with
  | 2 => if isLeap y then 29 else 28
  | 4 => 30 | 6 => 30 | 9 => 30 | 11 => 30
  | _ => 31

/-- `pd.to_datetime(s, format="%Y-%m-%d %H:%M")` on one combined string:
strict format match over the whole string plus calendar validation
(`errors='raise'` is the source's default, so failure is an exception —
here `none`). -/
def parseTS (s : String) : Option TS :=
  match parse4Digits s.data with
  | none => none
  | some (y, r1) =>
    match lit1 '-' r1 with
    | none => none
    | some r2 =>
      match parseField (fun v => 1 ≤ v && v ≤ 12) (fun v => 1 ≤ v && v ≤ 9) r2 with
      | none => none
      | some (mo, r3) =>
        match lit1 '-' r3 with
        | none => none
        | some r4 =>
          match parseField (fun v => 1 ≤ v && v ≤ 31) (fun v => 1 ≤ v && v ≤ 9) r4 with
          | none => none
          | some (d, r5) =>
            match lit1 ' ' r5 with
            | none => none
            | some r6 =>
              match parseField (fun v => v ≤ 23) (fun v => v ≤ 9) r6 with
              | none => none
              | some (h, r7) =>
                match lit1 ':' r7 with
                | none => none
                | some r8 =>
                  match parseField (fun v => v ≤ 59) (fun v => v ≤ 9) r8 with
                  | none => none
                  | some (mi, r9) =>
                    if r9 = [] ∧ 1 ≤ y ∧ d ≤ daysInMonth y mo then
                      some ⟨y, mo, d, h, mi⟩
                    else none

/-! ## `read_metadata` (MetadataReader) -/

/-- The founding-date field after `read_metadata`: either a parsed
`datetime` or the untouched raw string (the source has no `else` branch
setting an undefined value). -/
inductive FoundingDate where
  | parsed (year month day : Nat)
  | raw (s : String)
deriving DecidableEq

/-- The dictionary returned by `read_metadata`. -/
structure Meta where
  regiao : String
  uf : String
  estacao : String
  codigo_wmo : String
  latitude : Option ℚ
  longitude : Option ℚ
  altitude : Option ℚ
  data_fundacao : FoundingDate
deriving DecidableEq

/-- `_, value = next(reader)`: tuple unpacking of one semicolon-split line;
any shape other than exactly two fields raises (→ `none`). -/
def pairOf : List String → Option (String × String)
  | [a, b] => some (a, b)
  | _ => none

/-- `float(value.replace(",", "."))` with the enclosing `try`: `none` models
the `except` branch's `np.nan`. -/
def parseCoord (s : String) : Option ℚ :=
  parseRat (replaceChar ',' '.' s)

/-- `re.match("[0-9]{4}-[0-9]{2}-[0-9]{2}", s)`: a prefix match. -/
def ymdLead (s : String) : Bool :=
  match s.data with
  | a :: b :: c :: d :: e :: f :: g :: h :: i :: j :: _ =>
    a.isDigit && b.isDigit && c.isDigit && d.isDigit && e = '-' &&
    f.isDigit && g.isDigit && h = '-' && i.isDigit && j.isDigit
  | _ => false

/-- `re.match("[0-9]{2}/[0-9]{2}/[0-9]{2}", s)`: a prefix match. -/
def dmyLead (s : String) : Bool :=
  match s.data with
  | a :: b :: c :: d :: e :: f :: g :: h :: _ =>
    a.isDigit && b.isDigit && c = '/' && d.isDigit && e.isDigit && f = '/' &&
    g.isDigit && h.isDigit
  | _ => false

/-- `dt.datetime.strptime(s, "%Y-%m-%d")`: full-string match (leftover input
raises) plus calendar validation. -/
def parseYMDfull (s : String) : Option (Nat × Nat × Nat) :=
  match parse4Digits s.data with
  | none => none
  | some (y, r1) =>
    match lit1 '-' r1 with
    | none => none
    | some r2 =>
      match parseField (fun v => 1 ≤ v && v ≤ 12) (fun v => 1 ≤ v && v ≤ 9) r2 with
      | none => none
      | some (mo, r3) =>
        match lit1 '-' r3 with
        | none => none
        | some r4 =>
          match parseField (fun v => 1 ≤ v && v ≤ 31) (fun v => 1 ≤ v && v ≤ 9) r4 with
          | none => none
          | some (d, r5) =>
            if r5 = [] ∧ 1 ≤ y ∧ d ≤ daysInMonth y mo then some (y, mo, d) else none

/-- `dt.datetime.strptime(s, "%d/%m/%y")`: full-string match; `%y` is exactly
two digits, mapped to 2000–2068 / 1969–1999 as by POSIX. -/
def parseDMYfull (s : String) : Option (Nat × Nat × Nat) :=
  match parseField (fun v => 1 ≤ v && v ≤ 31) (fun v => 1 ≤ v && v ≤ 9) s.data with
  | none => none
  | some (d, r1) =>
    match lit1 '/' r1 with
    | none => none
    | some r2 =>
      match parseField (fun v => 1 ≤ v && v ≤ 12) (fun v => 1 ≤ v && v ≤ 9) r2 with
      | none => none
      | some (mo, r3) =>
        match lit1 '/' r3 with
        | none => none
        | some r4 =>
          match r4 with
          | a :: b :: r5 =>
            match digitVal? a, digitVal? b with
            | some x, some z =>
              let yy := x * 10 + z
              let y := if yy ≤ 68 then 2000 + yy else 1900 + yy
              if r5 = [] ∧ d ≤ daysInMonth y mo then some (y, mo, d) else none
            | _, _ => none
          | _ => none

/-- The founding-date branch of `read_metadata`: prefix-test the two literal
formats in order; a matching prefix whose full `strptime` fails raises
(→ `none`, which fails the whole header read); a value matching neither
prefix is kept as the raw string. -/
def parseFounding (s : String) : Option FoundingDate :=
  if ymdLead s then (parseYMDfull s).map (fun t => .parsed t.1 t.2.1 t.2.2)
  else if dmyLead s then (parseDMYfull s).map (fun t => .parsed t.1 t.2.1 t.2.2)
  else some (.raw s)

/-- `read_metadata` on the semicolon-split lines of a station file: reads
eight `label;value` lines in fixed order; coordinate parse failures degrade
to `none` fields; any other failure (missing line, wrong field count, a
date that matches a format prefix but fails `strptime`) makes the whole
read fail (the source then returns `{}`). -/
def read_metadata (lines : List (List String)) : Option Meta :=
  match lines with
  | l1 :: l2 :: l3 :: l4 :: l5 :: l6 :: l7 :: l8 :: _ =>
    match pairOf l1, pairOf l2, pairOf l3, pairOf l4 with
    | some p1, some p2, some p3, some p4 =>
      match pairOf l5, pairOf l6, pairOf l7, pairOf l8 with
      | some p5, some p6, some p7, some p8 =>
        match parseFounding p8.2 with
        | some fd =>
          some ⟨p1.2, p2.2, p3.2, p4.2,
                parseCoord p5.2, parseCoord p6.2, parseCoord p7.2, fd⟩
        | none => none
      | _, _, _, _ => none
    | _, _, _, _ => none
  | _ => none

/-! ## `read_data` (RecordDecoder) -/

/-- The 17 canonical numeric fields (`numeric_cols` in the source). -/
def numeric_cols : List String :=
  [ "precipitacao", "pressao_atmosferica", "pressao_atmosferica_maxima",
    "pressao_atmosferica_minima", "radiacao", "temperatura_ar",
    "temperatura_orvalho", "temperatura_maxima", "temperatura_minima",
    "temperatura_orvalho_maxima", "temperatura_orvalho_minima",
    "umidade_relativa_maxima", "umidade_relativa_minima", "umidade_relativa",
    "vento_direcao", "vento_rajada", "vento_velocidade" ]

/-- `cols_to_keep = numeric_cols + ['data', 'hora']`. -/
def cols_to_keep : List String := numeric_cols ++ ["data", "hora"]

/-- `pandas` default NA strings plus the `na_values=["-9999", "-9999,0"]`
passed by the source (`keep_default_na` is left at its default). -/
def naStrings : List String :=
  [ "-9999", "-9999,0",
    "", "#N/A", "#N/A N/A", "#NA", "-1.#IND", "-1.#QNB", "-NaN", "-nan",
    "1.#IND", "1.#QNB", "<NA>", "N/A", "NA", "NULL", "NaN", "None",
    "n/a", "nan", "null" ]

/-- One raw cell after `pd.read_csv(..., dtype=str, na_values=...)`:
NA strings become missing, everything else stays a string. -/
def readCell (s : String) : Option String :=
  if naStrings.contains s then none else some s

/-- A station-file body as handed to `pd.read_csv(..., skiprows=8)`:
the column-header line (line 9 of the file) and the data rows, already
semicolon-split. -/
structure RawFile where
  header : List String
  rows : List (List String)
deriving DecidableEq

/-- The cells of one data row restricted to `usecols=range(19)`: NA
conversion applied, short rows padded with missing values. -/
def rowCells (r : List String) : List (Option String) :=
  (r.map readCell).take 19 ++ List.replicate (19 - r.length) none

/-- First-occurrence column lookup on a row. -/
def getCol (hdr : List String) (cells : List (Option String)) (c : String) :
    Option String :=
  match idxOf? c hdr with
  | some i =>
    match nth? cells i with
    | some v => v
    | none => none
  | none => none

/-- The header after `d.rename(columns=columns_renamer)` (restricted to the
19 read columns). -/
def renamedHeader (f : RawFile) : List String :=
  (f.header.take 19).map columns_renamer

/-- `[col for col in cols_to_keep if col in d.columns]`. -/
def keepCols (f : RawFile) : List String :=
  cols_to_keep.filter (fun c => decide (c ∈ renamedHeader f))

/-- `empty_columns = [col for col in numeric_cols if col in d.columns]`. -/
def presentNumeric (f : RawFile) : List String :=
  numeric_cols.filter (fun c => decide (c ∈ renamedHeader f))

/-- One row after the column selection `d = d[[...]]`. -/
def selRow (f : RawFile) (r : List String) : List (Option String) :=
  (keepCols f).map (fun c => getCol (renamedHeader f) (rowCells r) c)

/-- All rows after column selection. -/
def selRows (f : RawFile) : List (List (Option String)) :=
  f.rows.map (selRow f)

/-- `pd.to_numeric(cell.str.replace(',', '.'), errors='coerce')` on one
cell of a selected row. -/
def numAt (hdr : List String) (cells : List (Option String)) (c : String) :
    Option ℚ :=
  (getCol hdr cells c).bind (fun s => parseRat (replaceChar ',' '.' s))

/-- `d[empty_columns].isnull().all(axis=1)` for one row. -/
def rowAllUndef (f : RawFile) (cells : List (Option String)) : Bool :=
  (presentNumeric f).all (fun c => (numAt (keepCols f) cells c).isNone)

/-- `if not d.empty and empty_columns: d = d.loc[~ ... .all(axis=1)]`. -/
def keptRows (f : RawFile) : List (List (Option String)) :=
  if (selRows f).isEmpty || (presentNumeric f).isEmpty then selRows f
  else (selRows f).filter (fun cells => !(rowAllUndef f cells))

/-- The decoded body: remaining column names (without `data`/`hora`, whose
place is taken by the separate timestamp) and the rows, each a timestamp
plus the remaining cells. -/
structure OutTable where
  header : List String
  rows : List (TS × List (Option String))
deriving DecidableEq

/-- A column name other than the raw `data`/`hora` fields. -/
def notDH (c : String) : Bool :=
  !(c = "data" : Bool) && !(c = "hora" : Bool)

/-- `d.drop(columns=["data", "hora"])` on the header. -/
def outHeader (hdr : List String) : List String :=
  hdr.filter notDH

/-- `d.drop(columns=["data", "hora"])` on one row. -/
def dropDH (hdr : List String) (cells : List (Option String)) :
    List (Option String) :=
  ((hdr.zip cells).filter (fun p => notDH p.1)).map Prod.snd

/-- `str(hour)` on a cell that may be `NaN` (Python renders the float `nan`
as the string `"nan"`). -/
def optStr : Option String → String
  | some s => s
  | none => "nan"

/-- The combined timestamp of one row:
`convert_dates(d["data"]) + " " + convert_hours(d["hora"])` fed to
`pd.to_datetime`.  A missing date cell raises already at the string
concatenation (`float('nan') + str`), hence `none` as well. -/
def rowStamp (hdr : List String) (cells : List (Option String)) : Option TS :=
  match getCol hdr cells "data" with
  | none => none
  | some ds =>
    parseTS (convert_date ds ++ " " ++ fix_hour_string (optStr (getCol hdr cells "hora")))

/-- `Option`-valued elementwise map that fails as soon as one element fails
(the vectorized `pd.to_datetime` raises on the first bad row). -/
def mapOpt {α β : Type} (f : α → Option β) : List α → Option (List β)
  | [] => some []
  | a :: t =>
    match f a with
    | none => none
    | some b =>
      match mapOpt f t with
      | none => none
      | some bs => some (b :: bs)

/-- `fix_data_hora`: build the `data_hora` column (an exception if any row's
combination fails to parse, or if `data`/`hora` are absent) and drop the
raw `data`/`hora` columns. -/
def fix_data_hora (hdr : List String) (rows : List (List (Option String))) :
    Except String OutTable :=
  if decide ("data" ∈ hdr) && decide ("hora" ∈ hdr) then
    match mapOpt (fun cells => (rowStamp hdr cells).map (fun ts => (ts, dropDH hdr cells))) rows with
    | some rs => .ok ⟨outHeader hdr, rs⟩
    | none => .error "time data does not match format"
  else .error "KeyError"

/-- `read_data`: read the body (19 columns required by `usecols`), rename,
select, numeric-coerce, drop all-undefined rows, return an empty frame if
nothing survives, otherwise reconcile the timestamps. -/
def read_data (f : RawFile) : Except String OutTable :=
  if f.header.length < 19 then .error "Usecols do not match columns"
  else if (keptRows f).isEmpty || (keepCols f).isEmpty then .ok ⟨[], []⟩
  else fix_data_hora (keepCols f) (keptRows f)

/-! ## `read_zipfile` (ArchiveIngester) -/

/-- One station file of the bundle, pre-split: the eight metadata lines as
seen by `read_metadata` and the body as seen by `read_data` (the source
opens the same zip member once for each reader). -/
structure CsvFile where
  metaLines : List (List String)
  body : RawFile
deriving DecidableEq

/-- One zip entry: name, directory flag and (for files) the content. -/
structure ZipEntry where
  filename : String
  isDir : Bool
  file : CsvFile
deriving DecidableEq

/-- The eligibility filter of `read_zipfile`: not a directory, name ends in
`.csv` case-insensitively, not under the `__MACOSX` prefix. -/
def eligibleEntry (e : ZipEntry) : Bool :=
  !e.isDir && strEndsWith (pyLower e.filename) ".csv" &&
    !(strStartsWith e.filename "__MACOSX")

/-- One row of the unified dataset: the station descriptor attached by
`d.assign(**meta)`, the timestamp, and the decoded measurement cells with
their column names. -/
structure DataRow where
  meta : Meta
  data_hora : TS
  header : List String
  cells : List (Option String)
deriving DecidableEq

/-- Processing of a single eligible entry inside the `for` loop: the rows it
contributes to the dataset and the error lines it prints.  A failed
`read_metadata` logs (inside `read_metadata`) and `continue`s; an exception
from `read_data` is caught by the `except` branch and logged; an empty
decode contributes nothing silently. -/
def perEntry (e : ZipEntry) : List DataRow × List String :=
  match read_metadata e.file.metaLines with
  | none => ([], ["Erro ao ler metadados: " ++ e.filename])
  | some meta =>
    match read_data e.file.body with
    | .error msg => ([], ["Erro ao processar " ++ e.filename ++ ": " ++ msg])
    | .ok t =>
      if t.rows.isEmpty then ([], [])
      else (t.rows.map (fun r => ⟨meta, r.1, t.header, r.2⟩), [])

/-- The loop state: dataset built so far and the error log. -/
def zipStep (acc : List DataRow × List String) (e : ZipEntry) :
    List DataRow × List String :=
  (acc.1 ++ (perEntry e).1, acc.2 ++ (perEntry e).2)

/-- `read_zipfile`: filter the eligible entries, then process each in order,
concatenating the surviving rows and collecting the per-entry failure
messages. -/
def read_zipfile (entries : List ZipEntry) : List DataRow × List String :=
  (entries.filter eligibleEntry).foldl zipStep ([], [])

/-! ## `media_regional_mensal` (Aggregator) -/

/-- `strftime('%B')` under the `pt_BR` locale set at program start. -/
def monthName : Nat → String
  | 1 => "janeiro" | 2 => "fevereiro" | 3 => "março" | 4 => "abril"
  | 5 => "maio" | 6 => "junho" | 7 => "julho" | 8 => "agosto"
  | 9 => "setembro" | 10 => "outubro" | 11 => "novembro" | 12 => "dezembro"
  | _ => ""

/-- The columns of `df_ano` that the aggregation reads: region, month
number (derived from `data_hora`), and the two averaged measurements. -/
structure AggRow where
  regiao : String
  mes : Nat
  temp : Option ℚ
  umid : Option ℚ
deriving DecidableEq

/-- Projection of a unified-dataset row to its aggregation-relevant columns
(a column absent from a file's decode is `NaN` after `pd.concat`). -/
def dataRowToAggRow (r : DataRow) : AggRow :=
  ⟨r.meta.regiao, r.data_hora.month,
   numAt r.header r.cells "temperatura_ar",
   numAt r.header r.cells "umidade_relativa"⟩

/-- One line of the aggregation report. -/
structure AggEntry where
  regiao : String
  mes_num : Nat
  mes_nome : String
  temperatura_media : Option ℚ
  umidade_media : Option ℚ
deriving DecidableEq

/-- The group key of a row (`mes_nome` is a function of `mes_num`, so the
three-column groupby key collapses to this pair). -/
def rowKey (r : AggRow) : String × Nat := (r.regiao, r.mes)

/-- Sort order of the output: region ascending, then month ascending
(`groupby(sort=True)` followed by `sort_values(['regiao', 'mes_num'])`). -/
def keyLE (a b : String × Nat) : Prop :=
  a.1 < b.1 ∨ (a.1 = b.1 ∧ a.2 ≤ b.2)

instance : DecidableRel keyLE := fun a b =>
  inferInstanceAs (Decidable (_ ∨ _))

instance : IsTotal (String × Nat) keyLE where
  total a b := by
    rcases lt_trichotomy a.1 b.1 with h | h | h
    · exact Or.inl (Or.inl h)
    · rcases Nat.le_total a.2 b.2 with h2 | h2
      · exact Or.inl (Or.inr ⟨h, h2⟩)
      · exact Or.inr (Or.inr ⟨h.symm, h2⟩)
    · exact Or.inr (Or.inl h)

instance : IsTrans (String × Nat) keyLE where
  trans a b c hab hbc := by
    rcases hab with h1 | ⟨e1, le1⟩
    · rcases hbc with h2 | ⟨e2, _⟩
      · exact Or.inl (h1.trans h2)
      · exact Or.inl (e2 ▸ h1)
    · rcases hbc with h2 | ⟨e2, le2⟩
      · exact Or.inl (e1 ▸ h2)
      · exact Or.inr ⟨e1.trans e2, le1.trans le2⟩

instance : IsAntisymm (String × Nat) keyLE where
  antisymm a b hab hba := by
    rcases hab with h1 | ⟨e1, le1⟩
    · rcases hba with h2 | ⟨e2, _⟩
      · exact absurd (h1.trans h2) (lt_irrefl _)
      · exact absurd h1 (e2 ▸ lt_irrefl _)
    · rcases hba with h2 | ⟨e2, le2⟩
      · exact absurd h2 (e1 ▸ lt_irrefl _)
      · exact Prod.ext e1 (Nat.le_antisymm le1 le2)

/-- The sorted list of distinct group keys (`groupby` sorts its keys; the
final `sort_values` keeps that order). -/
def aggKeys (rows : List AggRow) : List (String × Nat) :=
  List.insertionSort keyLE ((rows.map rowKey).dedup)

/-- The values contributing to one group mean for one measurement
(`NaN` is skipped by `pandas`' `'mean'`). -/
def groupVals (f : AggRow → Option ℚ) (rows : List AggRow)
    (k : String × Nat) : List ℚ :=
  (rows.filter (fun r => decide (rowKey r = k))).filterMap f

/-- `pandas`' `'mean'` aggregation: arithmetic mean of the non-missing
values, `NaN` for an all-missing group. -/
def meanOf (l : List ℚ) : Option ℚ :=
  if l = [] then none else some (l.sum / l.length)

/-- `media_regional_mensal`: group by `(regiao, mes_num, mes_nome)`,
aggregate the two means, sort by region then month. -/
def media_regional_mensal (rows : List AggRow) : List AggEntry :=
  (aggKeys rows).map (fun k =>
    ⟨k.1, k.2, monthName k.2,
     meanOf (groupVals AggRow.temp rows k),
     meanOf (groupVals AggRow.umid rows k)⟩)

deriving instance DecidableEq for Except

/-! ## Helper lemmas -/

/-- The possible outputs of `pyLowerChar` other than the input itself. -/
def lowerOutputs : List Char :=
  [ 'a', 'b', 'c', 'd', 'e', 'f', 'g', 'h', 'i', 'j', 'k', 'l', 'm',
    'n', 'o', 'p', 'q', 'r', 's', 't', 'u', 'v', 'w', 'x', 'y', 'z',
    'á', 'à', 'â', 'ã', 'ç', 'é', 'ê', 'í', 'ó', 'ô', 'õ', 'ú', 'ü' ]

theorem pyLowerChar_cases (c : Char) :
    pyLowerChar c = c ∨ pyLowerChar c ∈ lowerOutputs := by
  unfold pyLowerChar
  split
  all_goals first
    | exact Or.inr (by decide)
    | exact Or.inl rfl

theorem lowerOutputs_fixed : ∀ x ∈ lowerOutputs, pyLowerChar x = x := by decide

theorem pyLowerChar_idem (c : Char) : pyLowerChar (pyLowerChar c) = pyLowerChar c := by
  rcases pyLowerChar_cases c with h | h
  · rw [h]
    exact h
  · exact lowerOutputs_fixed (pyLowerChar c) h

theorem pyLower_idem (s : String) : pyLower (pyLower s) = pyLower s := by
  unfold pyLower
  simp only [List.map_map]
  congr 1
  exact List.map_congr_left (fun c _ => pyLowerChar_idem c)

theorem renameRules_canon_fixed :
    ∀ r ∈ renameRules, columns_renamer r.2 = r.2 := by decide

theorem columns_renamer_idem (s : String) :
    columns_renamer (columns_renamer s) = columns_renamer s := by
  rcases hf : renameRules.find? (fun r => matchesPat r.1 (pyLower s).data) with _ | r
  · have h1 : columns_renamer s = pyLower s := by
      unfold columns_renamer renameLower
      rw [hf]
    rw [h1]
    unfold columns_renamer
    rw [pyLower_idem]
    unfold renameLower
    rw [hf]
  · have h1 : columns_renamer s = r.2 := by
      unfold columns_renamer renameLower
      rw [hf]
    rw [h1]
    exact renameRules_canon_fixed r (List.mem_of_find?_eq_some hf)

/-! ## Claim theorems -/

/-- C1: the hour-string decoder evaluates its fallback chain in the fixed
order `HH:MM`, then `HHMM` (colon inserted after two digits), then `HH UTC`
(hour kept, minute forced to `00`), then any leading two-digit run as the
hour with minute `00`, and otherwise `00:00`; in particular the inputs
`"23:59"`, `"2359"`, `"23 UTC"`, `"23X"`, `"garbage"` decode to `23:59`,
`23:59`, `23:00`, `23:00`, `00:00`. -/
theorem convert_hours_fallback_chain :
    convert_hours ["23:59", "2359", "23 UTC", "23X", "garbage"] =
      ["23:59", "23:59", "23:00", "23:00", "00:00"]
    ∧ (∀ s, patHHMMb s = true → fix_hour_string s = s)
    ∧ (∀ s, patHHMMb s = false → pat4b s = true →
        fix_hour_string s = strTake 2 s ++ ":" ++ strDrop 2 s)
    ∧ (∀ s, patHHMMb s = false → pat4b s = false → patUTCb s = true →
        fix_hour_string s = strTake 2 s ++ ":00")
    ∧ (∀ s, patHHMMb s = false → pat4b s = false → patUTCb s = false →
        lead2b s = true → fix_hour_string s = strTake 2 s ++ ":00")
    ∧ (∀ s, patHHMMb s = false → pat4b s = false → patUTCb s = false →
        lead2b s = false → fix_hour_string s = "00:00") := by
  refine ⟨by decide, ?_, ?_, ?_, ?_, ?_⟩ <;>
    · intro s
      intros
      simp [fix_hour_string, *]

/-- Witness for C1: the chain laws applied at concrete hour strings. -/
theorem convert_hours_fallback_chain_witness :
    fix_hour_string "12:34" = "12:34" ∧
    fix_hour_string "0715" = strTake 2 "0715" ++ ":" ++ strDrop 2 "0715" ∧
    fix_hour_string "xx" = "00:00" :=
  ⟨convert_hours_fallback_chain.2.1 "12:34" (by decide),
   convert_hours_fallback_chain.2.2.1 "0715" (by decide) (by decide),
   convert_hours_fallback_chain.2.2.2.2.2 "xx" (by decide) (by decide)
     (by decide) (by decide)⟩

/-- C9: the schema normalizer is idempotent — normalizing twice equals
normalizing once for every raw header label; already-canonical identifiers
such as `temperatura_ar` and `umidade_relativa` are returned unchanged; a
label matched by no rename rule passes through lower-cased rather than
failing. -/
theorem columns_renamer_idempotent :
    (∀ s, columns_renamer (columns_renamer s) = columns_renamer s)
    ∧ columns_renamer "temperatura_ar" = "temperatura_ar"
    ∧ columns_renamer "umidade_relativa" = "umidade_relativa"
    ∧ (∀ r ∈ renameRules, columns_renamer r.2 = r.2)
    ∧ (∀ s, renameRules.find? (fun r => matchesPat r.1 (pyLower s).data) = none →
        columns_renamer s = pyLower s) := by
  refine ⟨columns_renamer_idem, by decide, by decide, renameRules_canon_fixed, ?_⟩
  intro s hf
  unfold columns_renamer renameLower
  rw [hf]

/-- Witness for C9: the pass-through law applied at a concrete unrecognized
label. -/
theorem columns_renamer_idempotent_witness :
    columns_renamer "ESTACAO" = pyLower "ESTACAO" :=
  columns_renamer_idempotent.2.2.2.2 "ESTACAO" (by decide)

/-- An 8-line header whose founding-date value matches neither accepted
format: the source keeps the raw string. -/
def exMetaRaw : List (List String) :=
  [ ["REGIAO:", "NE"], ["UF:", "CE"], ["ESTACAO:", "FORTALEZA"],
    ["CODIGO (WMO):", "A305"], ["LATITUDE:", "abc"], ["LONGITUDE:", "10,5"],
    ["ALTITUDE:", "100"], ["DATA DE FUNDACAO:", "garbage"] ]

/-- C2 counterexample: on an 8-line `label;value` header whose founding-date
value matches neither `YYYY-MM-DD` nor `DD/MM/YY`, `read_metadata` keeps the
*raw unparsed string* as the founding date (there is no branch producing an
undefined date), while a malformed latitude does degrade to undefined — so
the founding-date half of the claim is false on the code. -/
theorem read_metadata_raw_date_cex :
    read_metadata exMetaRaw =
      some ⟨"NE", "CE", "FORTALEZA", "A305",
            none, some (mkRat 21 2), some (mkRat 100 1),
            FoundingDate.raw "garbage"⟩ ∧
    (read_metadata exMetaRaw).map Meta.data_fundacao ≠
      some (FoundingDate.raw "") := by
  constructor
  · decide
  · decide

/-- C2 (amended): for every 8-line header of `label;value` pairs whose
founding-date value matches neither format prefix, `read_metadata` returns a
descriptor (it never throws, whatever the coordinate values are): the three
coordinates are the result of comma-to-dot numeric parsing (`none` on
failure) and the founding date is the raw unparsed string. -/
theorem read_metadata_amended
    (a1 b1 a2 b2 a3 b3 a4 b4 a5 b5 a6 b6 a7 b7 a8 b8 : String)
    (hy : ymdLead b8 = false) (hd : dmyLead b8 = false) :
    read_metadata
      [[a1, b1], [a2, b2], [a3, b3], [a4, b4],
       [a5, b5], [a6, b6], [a7, b7], [a8, b8]] =
      some ⟨b1, b2, b3, b4,
            parseCoord b5, parseCoord b6, parseCoord b7,
            FoundingDate.raw b8⟩ := by
  simp [read_metadata, pairOf, parseFounding, hy, hd]

/-- Witness for C2 (amended): a concrete header with unparsable coordinates
and a free-text founding date. -/
theorem read_metadata_amended_witness :
    read_metadata
      [["REGIAO:", "S"], ["UF:", "RS"], ["ESTACAO:", "X"], ["CODIGO:", "W1"],
       ["LATITUDE:", "bad"], ["LONGITUDE:", "bad"], ["ALTITUDE:", "bad"],
       ["FUNDACAO:", "unknown"]] =
      some ⟨"S", "RS", "X", "W1",
            parseCoord "bad", parseCoord "bad", parseCoord "bad",
            FoundingDate.raw "unknown"⟩ :=
  read_metadata_amended "REGIAO:" "S" "UF:" "RS" "ESTACAO:" "X" "CODIGO:" "W1"
    "LATITUDE:" "bad" "LONGITUDE:" "bad" "ALTITUDE:" "bad" "FUNDACAO:" "unknown"
    (by decide) (by decide)

/-- Characterization of the fold inside `read_zipfile`: rows and log lines
are the per-entry contributions, concatenated in entry order. -/
theorem zipFold_char (es : List ZipEntry) (D : List DataRow) (L : List String) :
    es.foldl zipStep (D, L) =
      (D ++ (es.map (fun e => (perEntry e).1)).flatten,
       L ++ (es.map (fun e => (perEntry e).2)).flatten) := by
  induction es generalizing D L with
  | nil => simp
  | cons e t ih => simp [zipStep, ih, List.append_assoc]

/-- A failing entry (metadata read failed, or the body decode raised)
contributes no rows and exactly one log line. -/
theorem perEntry_fail (e : ZipEntry)
    (h : read_metadata e.file.metaLines = none ∨
      ∃ m msg, read_metadata e.file.metaLines = some m ∧
        read_data e.file.body = Except.error msg) :
    (perEntry e).1 = [] ∧ (perEntry e).2.length = 1 := by
  rcases h with h | ⟨m, msg, hm, he⟩
  · simp [perEntry, h]
  · simp [perEntry, hm, he]

/-- A complete 8-line metadata header for the two-file scenario. -/
def metaLinesGood : List (List String) :=
  [ ["REGIAO:", "NE"], ["UF:", "CE"], ["ESTACAO:", "FORTALEZA"],
    ["CODIGO (WMO):", "A305"], ["LATITUDE:", "-3,72"],
    ["LONGITUDE:", "-38,54"], ["ALTITUDE:", "26,45"],
    ["DATA DE FUNDACAO:", "2000-01-01"] ]

/-- A well-formed 19-column body (date, hour, and 17 non-canonical
columns), one valid row. -/
def bodyNoCanon : RawFile :=
  ⟨["Data", "Hora UTC", "c01", "c02", "c03", "c04", "c05", "c06", "c07",
    "c08", "c09", "c10", "c11", "c12", "c13", "c14", "c15", "c16", "c17"],
   [["2020/01/15", "0000", "1", "1", "1", "1", "1", "1", "1", "1", "1",
     "1", "1", "1", "1", "1", "1", "1", "1"]]⟩

/-- The well-formed entry of the two-file scenario. -/
def zipEntryGood : ZipEntry := ⟨"a.csv", false, ⟨metaLinesGood, bodyNoCanon⟩⟩

/-- The entry with a truncated (single-line) metadata header. -/
def zipEntryBad : ZipEntry := ⟨"b.csv", false, ⟨[["CABECALHO", "TRUNCADO"]], bodyNoCanon⟩⟩

/-- C3: a failure while processing one eligible entry (a truncated or
malformed metadata header, or an exception out of the body decode) is caught
and logged and removes only that entry's contribution — the remaining
entries produce exactly the same dataset, and the log grows by exactly one
line.  For the concrete two-file bundle (one well-formed file, one with a
truncated header) the dataset is exactly the rows of the well-formed file
and the run records exactly one failure. -/
theorem read_zipfile_partial_failure :
    (∀ es1 es2 e, eligibleEntry e = true →
      (read_metadata e.file.metaLines = none ∨
        ∃ m msg, read_metadata e.file.metaLines = some m ∧
          read_data e.file.body = Except.error msg) →
      (read_zipfile (es1 ++ e :: es2)).1 = (read_zipfile (es1 ++ es2)).1 ∧
      (read_zipfile (es1 ++ e :: es2)).2.length =
        (read_zipfile (es1 ++ es2)).2.length + 1)
    ∧ (read_zipfile [zipEntryGood, zipEntryBad]).1 = (perEntry zipEntryGood).1
    ∧ (read_zipfile [zipEntryGood, zipEntryBad]).1.length = 1
    ∧ (read_zipfile [zipEntryGood, zipEntryBad]).2.length = 1 := by
  refine ⟨?_, by decide, by decide, by decide⟩
  intro es1 es2 e hel hf
  obtain ⟨h1, h2⟩ := perEntry_fail e hf
  unfold read_zipfile
  rw [List.filter_append, List.filter_append, List.filter_cons_of_pos hel,
    zipFold_char, zipFold_char]
  simp [h1, h2, List.length_append]
  omega

/-- Witness for C3: the skip property applied to the truncated-header entry
as the only entry of the bundle. -/
theorem read_zipfile_partial_failure_witness :
    (read_zipfile [zipEntryBad]).1 = (read_zipfile []).1 ∧
    (read_zipfile [zipEntryBad]).2.length = (read_zipfile []).2.length + 1 := by
  have h := read_zipfile_partial_failure.1 [] [] zipEntryBad (by decide)
    (Or.inl (by decide))
  simpa using h

/-- If one element maps to `none`, the whole `mapOpt` fails. -/
theorem mapOpt_none_of_mem {α β : Type} {f : α → Option β} {l : List α} {a : α}
    (hmem : a ∈ l) (ha : f a = none) : mapOpt f l = none := by
  induction l with
  | nil => cases hmem
  | cons b t ih =>
    rcases List.mem_cons.mp hmem with rfl | hm
    · simp [mapOpt, ha]
    · unfold mapOpt
      rcases hfb : f b with _ | v
      · rfl
      · rw [ih hm]

/-- The two-row body: the first row's date is valid, the second is free
text, so the vectorized timestamp parse raises for the whole file. -/
def bodyBadRow : RawFile :=
  ⟨["Data", "Hora UTC", "c01", "c02", "c03", "c04", "c05", "c06", "c07",
    "c08", "c09", "c10", "c11", "c12", "c13", "c14", "c15", "c16", "c17"],
   [["2020/01/15", "0000", "1", "1", "1", "1", "1", "1", "1", "1", "1",
     "1", "1", "1", "1", "1", "1", "1", "1"],
    ["garbage", "0000", "1", "1", "1", "1", "1", "1", "1", "1", "1",
     "1", "1", "1", "1", "1", "1", "1", "1"]]⟩

/-- C4 counterexample: a file with one well-formed row and one row whose
combined date+time does not parse makes `read_data` raise for the whole
file — no rows are emitted, not even the well-formed one (the same
well-formed row alone decodes fine), because `pd.to_datetime` is called
with its default `errors='raise'`. -/
theorem read_data_row_fatal_cex :
    read_data bodyBadRow = Except.error "time data does not match format" ∧
    read_data bodyNoCanon = Except.ok ⟨[], [(⟨2020, 1, 15, 0, 0⟩, [])]⟩ := by
  exact ⟨by decide, by decide⟩

/-- C4 (amended): a row whose combined date+time fails to parse as a valid
calendar timestamp is fatal to the *file*: `fix_data_hora` raises (and the
ingester then skips the whole file, so it is not fatal to the run — see the
C3 theorem).  The remaining rows of that file are not emitted. -/
theorem fix_data_hora_row_fatal (hdr : List String)
    (rows : List (List (Option String))) (cells : List (Option String))
    (hd : "data" ∈ hdr) (hh : "hora" ∈ hdr) (hmem : cells ∈ rows)
    (hbad : rowStamp hdr cells = none) :
    fix_data_hora hdr rows = Except.error "time data does not match format" := by
  have hnone : mapOpt (fun c => (rowStamp hdr c).map (fun ts => (ts, dropDH hdr c))) rows
      = none := mapOpt_none_of_mem hmem (by simp [hbad])
  simp [fix_data_hora, hd, hh, hnone]

/-- Witness for C4 (amended): the bad row of `bodyBadRow`, at the
`fix_data_hora` stage. -/
theorem fix_data_hora_row_fatal_witness :
    fix_data_hora ["data", "hora"]
      [[some "2020/01/15", some "0000"], [some "garbage", some "0000"]] =
      Except.error "time data does not match format" :=
  fix_data_hora_row_fatal ["data", "hora"]
    [[some "2020/01/15", some "0000"], [some "garbage", some "0000"]]
    [some "garbage", some "0000"]
    (by decide) (by decide) (by simp) (by decide)

/-- Column lookup on a cons cell. -/
theorem getCol_cons (h : String) (hs : List String) (x : Option String)
    (xs : List (Option String)) (c : String) :
    getCol (h :: hs) (x :: xs) c = if h = c then x else getCol hs xs c := by
  by_cases hc : h = c
  · simp [getCol, idxOf?, hc, nth?]
  · simp only [getCol, idxOf?, if_neg hc]
    rcases hi : idxOf? c hs with _ | i
    · simp
    · simp [nth?]

/-- Dropping the `data`/`hora` columns does not change the lookup of any
other column (the rows track the header positionally). -/
theorem getCol_dropDH (hdr : List String) (cells : List (Option String))
    (c : String) (hlen : hdr.length = cells.length) (hc : notDH c = true) :
    getCol (outHeader hdr) (dropDH hdr cells) c = getCol hdr cells c := by
  induction hdr generalizing cells with
  | nil =>
    have : cells = [] := by
      cases cells
      · rfl
      · simp at hlen
    subst this
    rfl
  | cons h hs ih =>
    rcases cells with _ | ⟨x, xs⟩
    · simp at hlen
    · have hlen' : hs.length = xs.length := by simpa using hlen
      by_cases hdh : notDH h = true
      · have : outHeader (h :: hs) = h :: outHeader hs := by
          simp [outHeader, List.filter_cons, hdh]
        rw [this]
        have : dropDH (h :: hs) (x :: xs) = x :: dropDH hs xs := by
          simp [dropDH, List.filter_cons, hdh]
        rw [this, getCol_cons, getCol_cons, ih xs hlen']
      · have h1 : outHeader (h :: hs) = outHeader hs := by
          simp only [outHeader, List.filter_cons]
          rw [if_neg hdh]
        have h2 : dropDH (h :: hs) (x :: xs) = dropDH hs xs := by
          simp only [dropDH, List.zip_cons_cons, List.filter_cons]
          rw [if_neg hdh]
        have hne : h ≠ c := by
          intro he
          rw [he] at hdh
          exact hdh hc
        rw [h1, h2, getCol_cons, if_neg hne, ih xs hlen']

/-- Every canonical numeric column name is distinct from `data` and `hora`. -/
theorem numeric_cols_notDH : ∀ c ∈ numeric_cols, notDH c = true := by decide

/-- If `mapOpt` succeeds, every output element comes from some input
element. -/
theorem mapOpt_mem {α β : Type} {f : α → Option β} :
    ∀ {l : List α} {l' : List β}, mapOpt f l = some l' → ∀ b ∈ l', ∃ a ∈ l, f a = some b := by
  intro l
  induction l with
  | nil =>
    intro l' h b hb
    simp [mapOpt] at h
    subst h
    cases hb
  | cons a t ih =>
    intro l' h b hb
    unfold mapOpt at h
    rcases hfa : f a with _ | v
    · rw [hfa] at h
      cases h
    · rw [hfa] at h
      rcases hmt : mapOpt f t with _ | vs
      · rw [hmt] at h
        cases h
      · rw [hmt] at h
        injection h with h
        subst h
        rcases List.mem_cons.mp hb with rfl | hbv
        · exact ⟨a, List.mem_cons_self a t, hfa⟩
        · obtain ⟨a', ha', hfa'⟩ := ih hmt b hbv
          exact ⟨a', List.mem_cons_of_mem a ha', hfa'⟩

/-- A row passes the all-undefined filter iff one of the present canonical
numeric columns parses to a defined value. -/
theorem rowAllUndef_false_iff (f : RawFile) (cells : List (Option String)) :
    rowAllUndef f cells = false ↔
      ∃ c ∈ presentNumeric f, (numAt (keepCols f) cells c).isNone = false := by
  rw [← Bool.not_eq_true, rowAllUndef, List.all_eq_true]
  constructor
  · intro h
    push_neg at h
    obtain ⟨c, hc, hv⟩ := h
    exact ⟨c, hc, Bool.eq_false_iff.mpr hv⟩
  · intro ⟨c, hc, hv⟩ h
    have := h c hc
    rw [this] at hv
    cases hv

/-- "All 17 canonical numeric fields are undefined" for a decoded row with
the given column names. -/
def allCanonUndef (hdr : List String) (cells : List (Option String)) : Bool :=
  numeric_cols.all (fun c => (numAt hdr cells c).isNone)

/-- C5 counterexample: a file whose 19 columns contain `data`, `hora` and no
canonical numeric column decodes to one emitted row (its timestamp parses),
and that emitted row has all 17 canonical numeric fields undefined — the
all-undefined filter is skipped because `empty_columns` is empty, so such a
row does enter the dataset. -/
theorem read_data_all_undef_cex :
    read_data bodyNoCanon = Except.ok ⟨[], [(⟨2020, 1, 15, 0, 0⟩, [])]⟩ ∧
    allCanonUndef [] [] = true ∧
    presentNumeric bodyNoCanon = [] := by
  exact ⟨by decide, by decide, by decide⟩

/-- C5 (amended): whenever the file contains at least one canonical numeric
column, every row emitted by `read_data` has a defined value in at least one
present canonical column — in particular no emitted row has all 17 canonical
fields undefined.  (A file with *no* canonical column can emit all-undefined
rows; see the C5 counterexample and the C10 theorem.) -/
theorem read_data_no_all_undef (f : RawFile) (t : OutTable)
    (hok : read_data f = Except.ok t) (hp : presentNumeric f ≠ []) :
    ∀ ts cells, (ts, cells) ∈ t.rows →
      ∃ c ∈ presentNumeric f, (numAt t.header cells c).isNone = false := by
  intro ts cells hmem
  unfold read_data at hok
  by_cases h19 : f.header.length < 19
  · rw [if_pos h19] at hok
    cases hok
  rw [if_neg h19] at hok
  by_cases hemp : ((keptRows f).isEmpty || (keepCols f).isEmpty) = true
  · rw [if_pos hemp] at hok
    injection hok with hok
    rw [← hok] at hmem
    cases hmem
  rw [if_neg hemp] at hok
  unfold fix_data_hora at hok
  by_cases hdh : (decide ("data" ∈ keepCols f) && decide ("hora" ∈ keepCols f)) = true
  swap
  · rw [if_neg hdh] at hok
    cases hok
  rw [if_pos hdh] at hok
  rcases hmap : mapOpt (fun cl => (rowStamp (keepCols f) cl).map
      (fun ts => (ts, dropDH (keepCols f) cl))) (keptRows f) with _ | rs
  · rw [hmap] at hok
    cases hok
  rw [hmap] at hok
  injection hok with hok
  rw [← hok] at hmem
  obtain ⟨cellsIn, hin, hf⟩ := mapOpt_mem hmap _ hmem
  have hcells : cells = dropDH (keepCols f) cellsIn := by
    rcases hrs : rowStamp (keepCols f) cellsIn with _ | ts'
    · rw [hrs] at hf
      cases hf
    · rw [hrs] at hf
      simp only [Option.map_some'] at hf
      injection hf with hf
      exact (congrArg Prod.snd hf).symm
  have hsne : (selRows f).isEmpty = false := by
    by_contra hcon
    have hse : (selRows f).isEmpty = true := by
      cases hqq : (selRows f).isEmpty
      · exact absurd hqq hcon
      · rfl
    have hkr : keptRows f = selRows f := by
      unfold keptRows
      rw [if_pos (by rw [hse]; rfl)]
    apply hemp
    rw [hkr, hse]
    rfl
  have hpne : (presentNumeric f).isEmpty = false := by
    cases hq : presentNumeric f with
    | nil => exact absurd hq hp
    | cons a l => rfl
  have hsel : keptRows f = (selRows f).filter (fun cl => !(rowAllUndef f cl)) := by
    unfold keptRows
    rw [hsne, hpne]
    rfl
  rw [hsel] at hin
  have hmemf := List.mem_filter.mp hin
  have hallf : rowAllUndef f cellsIn = false := by
    have h2 := hmemf.2
    simpa using h2
  obtain ⟨c, hcmem, hdef⟩ := (rowAllUndef_false_iff f cellsIn).mp hallf
  refine ⟨c, hcmem, ?_⟩
  have hlen : (keepCols f).length = cellsIn.length := by
    obtain ⟨r, _, hrc⟩ := List.mem_map.mp hmemf.1
    rw [← hrc]
    simp [selRow]
  have hcnd : notDH c = true :=
    numeric_cols_notDH c (List.mem_of_mem_filter hcmem)
  have hgc := getCol_dropDH (keepCols f) cellsIn c hlen hcnd
  have hhd : t.header = outHeader (keepCols f) := by
    rw [← hok]
  rw [hhd, hcells]
  unfold numAt
  rw [hgc]
  exact hdef

/-- Witness for C5 (amended): a file with one canonical temperature column
and two rows, one of which is all-sentinel; only the defined row survives,
and it indeed has a defined present canonical column. -/
def bodyWithTemp : RawFile :=
  ⟨["Data", "Hora UTC", "TEMPERATURA DO AR - BULBO SECO, HORARIA (°C)",
    "c02", "c03", "c04", "c05", "c06", "c07", "c08", "c09", "c10", "c11",
    "c12", "c13", "c14", "c15", "c16", "c17"],
   [["2020/01/15", "0000", "20,5", "1", "1", "1", "1", "1", "1", "1", "1",
     "1", "1", "1", "1", "1", "1", "1", "1"],
    ["2020/01/15", "0100", "-9999", "1", "1", "1", "1", "1", "1", "1", "1",
     "1", "1", "1", "1", "1", "1", "1", "1"]]⟩

/-- Witness for C5 (amended), instantiated on `bodyWithTemp`. -/
theorem read_data_no_all_undef_witness :
    ∃ c ∈ presentNumeric bodyWithTemp,
      (numAt ["temperatura_ar"] [some "20,5"] c).isNone = false := by
  have h := read_data_no_all_undef bodyWithTemp
    ⟨["temperatura_ar"], [(⟨2020, 1, 15, 0, 0⟩, [some "20,5"])]⟩
    (by decide) (by decide) ⟨2020, 1, 15, 0, 0⟩ [some "20,5"] (by simp)
  simpa using h

/-- A second no-canonical-column file (different date/hour encoding). -/
def bodyNoCanon2 : RawFile :=
  ⟨["Data", "Hora UTC", "c01", "c02", "c03", "c04", "c05", "c06", "c07",
    "c08", "c09", "c10", "c11", "c12", "c13", "c14", "c15", "c16", "c17"],
   [["2021/02/03", "1200", "1", "1", "1", "1", "1", "1", "1", "1", "1",
     "1", "1", "1", "1", "1", "1", "1", "1"]]⟩

/-- C10: the all-undefined-row filter of `read_data` only looks at the
canonical numeric columns actually present after header normalization:
(i) with no present canonical column the filter is skipped entirely;
(ii) with at least one present canonical column, a selected row is kept iff
some present canonical column parses to a defined value;
(iii) concretely, a file with none of the 17 canonical columns emits its
row — with all 17 canonical fields undefined — provided the timestamp
parses. -/
theorem read_data_filter_scope :
    (∀ f, presentNumeric f = [] → keptRows f = selRows f)
    ∧ (∀ f cells, presentNumeric f ≠ [] → cells ∈ selRows f →
        (cells ∈ keptRows f ↔
          ∃ c ∈ presentNumeric f, (numAt (keepCols f) cells c).isNone = false))
    ∧ read_data bodyNoCanon2 = Except.ok ⟨[], [(⟨2021, 2, 3, 12, 0⟩, [])]⟩
    ∧ allCanonUndef [] [] = true := by
  refine ⟨?_, ?_, by decide, by decide⟩
  · intro f hp
    unfold keptRows
    rw [if_pos (by rw [hp]; simp)]
  · intro f cells hp hcell
    have hsne : (selRows f).isEmpty = false := by
      cases hq : selRows f with
      | nil =>
        rw [hq] at hcell
        cases hcell
      | cons a l => rfl
    have hpne : (presentNumeric f).isEmpty = false := by
      cases hq : presentNumeric f with
      | nil => exact absurd hq hp
      | cons a l => rfl
    have hsel : keptRows f = (selRows f).filter (fun cl => !(rowAllUndef f cl)) := by
      unfold keptRows
      rw [hsne, hpne]
      rfl
    rw [hsel]
    rw [List.mem_filter]
    constructor
    · intro ⟨_, hkeep⟩
      exact (rowAllUndef_false_iff f cells).mp (by simpa using hkeep)
    · intro hex
      exact ⟨hcell, by simp [(rowAllUndef_false_iff f cells).mpr hex]⟩

/-- Witness for C10: the defined-temperature row of `bodyWithTemp` is kept
by the filter. -/
theorem read_data_filter_scope_witness :
    [some "20,5", some "2020/01/15", some "0000"] ∈ keptRows bodyWithTemp := by
  have h := (read_data_filter_scope.2.1 bodyWithTemp
    [some "20,5", some "2020/01/15", some "0000"]
    (by decide) (by decide)).mpr
  exact h ⟨"temperatura_ar", by decide, by decide⟩

/-- The three January rows of the end-to-end scenario. -/
def aggRowsJan : List AggRow :=
  [⟨"NE", 1, some 20, some 80⟩, ⟨"NE", 1, some 22, none⟩,
   ⟨"NE", 1, none, some 70⟩]

/-- C6: the aggregator averages exactly the defined values of a group —
the concrete `(NE, January)` group with temperatures `{20, 22, undefined}`
and humidities `{80, undefined, 70}` yields means `21` and `75` — and a
group whose contributing rows are all undefined for a field yields an
undefined mean for that field (not zero, not an error). -/
theorem media_mean_over_defined :
    media_regional_mensal aggRowsJan =
      [⟨"NE", 1, "janeiro", some 21, some 75⟩]
    ∧ (∀ (g : AggRow → Option ℚ) (rows : List AggRow) (k : String × Nat),
        (∀ r ∈ rows, rowKey r = k → g r = none) →
        meanOf (groupVals g rows k) = none) := by
  constructor
  · with_unfolding_all rfl
  · intro g rows k hall
    have hnil : groupVals g rows k = [] := by
      rw [groupVals, List.filterMap_eq_nil_iff]
      intro r hr
      have hm := List.mem_filter.mp hr
      exact hall r hm.1 (by simpa using hm.2)
    rw [hnil]
    rfl

/-- Witness for C6: the all-undefined-mean law at a concrete group. -/
theorem media_mean_over_defined_witness :
    meanOf (groupVals AggRow.temp [⟨"S", 2, none, some 1⟩] ("S", 2)) = none :=
  media_mean_over_defined.2 AggRow.temp [⟨"S", 2, none, some 1⟩] ("S", 2)
    (by decide)

/-- The single-row dataset for the C7 counterexample. -/
def aggRowsOne : List AggRow := [⟨"NE", 1, some 20, some 80⟩]

/-- C7 counterexample: a dataset whose region `NE` has contributing rows in
January only yields one aggregate entry for that region, not twelve —
months without contributing rows are omitted, so "exactly 12 entries per
region" fails. -/
theorem media_not_twelve_cex :
    ((media_regional_mensal aggRowsOne).filter
        (fun e => decide (e.regiao = "NE"))).length = 1 ∧
    ¬ ((media_regional_mensal aggRowsOne).filter
        (fun e => decide (e.regiao = "NE"))).length = 12 := by
  constructor
  · with_unfolding_all rfl
  · intro h
    have h1 : ((media_regional_mensal aggRowsOne).filter
        (fun e => decide (e.regiao = "NE"))).length = 1 := by
      with_unfolding_all rfl
    rw [h1] at h
    cases h

/-- C7 (amended): every region present in the dataset yields exactly one
aggregate entry per month that has at least one contributing row (at most
12 for calendar months), and months with zero contributing rows are
omitted rather than synthesized: the `(region, month)` keys of the output
are duplicate-free, and such a key appears iff some row carries it. -/
theorem media_one_entry_per_month (rows : List AggRow) :
    ((media_regional_mensal rows).map (fun e => (e.regiao, e.mes_num))).Nodup
    ∧ ∀ reg m,
        ((∃ e ∈ media_regional_mensal rows, e.regiao = reg ∧ e.mes_num = m) ↔
          ∃ r ∈ rows, r.regiao = reg ∧ r.mes = m) := by
  have hkeys : (media_regional_mensal rows).map (fun e => (e.regiao, e.mes_num))
      = aggKeys rows := by
    unfold media_regional_mensal
    rw [List.map_map]
    have : ((fun e : AggEntry => (e.regiao, e.mes_num)) ∘
        (fun k : String × Nat =>
          (⟨k.1, k.2, monthName k.2,
            meanOf (groupVals AggRow.temp rows k),
            meanOf (groupVals AggRow.umid rows k)⟩ : AggEntry))) = id := by
      funext k
      rfl
    rw [this, List.map_id]
  constructor
  · rw [hkeys]
    exact (List.perm_insertionSort keyLE _).nodup_iff.mpr (List.nodup_dedup _)
  · intro reg m
    have hmem : (reg, m) ∈ aggKeys rows ↔ ∃ r ∈ rows, r.regiao = reg ∧ r.mes = m := by
      unfold aggKeys
      rw [(List.perm_insertionSort keyLE _).mem_iff, List.mem_dedup, List.mem_map]
      constructor
      · intro ⟨r, hr, hk⟩
        exact ⟨r, hr, congrArg Prod.fst hk, congrArg Prod.snd hk⟩
      · intro ⟨r, hr, h1, h2⟩
        exact ⟨r, hr, by rw [rowKey, h1, h2]⟩
    rw [← hmem, ← hkeys]
    constructor
    · intro ⟨e, he, h1, h2⟩
      exact List.mem_map.mpr ⟨e, he, by rw [h1, h2]⟩
    · intro h
      obtain ⟨e, he, hk⟩ := List.mem_map.mp h
      exact ⟨e, he, congrArg Prod.fst hk, congrArg Prod.snd hk⟩

/-- Means are invariant under permutation of the value list. -/
theorem meanOf_perm {a b : List ℚ} (p : a.Perm b) : meanOf a = meanOf b := by
  unfold meanOf
  rcases ha : a with _ | ⟨x, t⟩
  · rw [ha] at p
    rw [p.symm.eq_nil]
  · rw [← ha]
    have hb : b ≠ [] := by
      intro hb
      rw [hb] at p
      rw [p.eq_nil] at ha
      cases ha
    have hane : a ≠ [] := by
      rw [ha]
      intro h
      cases h
    rw [if_neg hane, if_neg hb, p.sum_eq, p.length_eq]

/-- C8: the aggregator is commutative in row order — permuting the dataset's
rows yields the same ordered report with the same exact (rational) means. -/
theorem media_perm_invariant (l l' : List AggRow) (hp : l.Perm l') :
    media_regional_mensal l = media_regional_mensal l' := by
  have hdp : ((l.map rowKey).dedup).Perm ((l'.map rowKey).dedup) :=
    (hp.map rowKey).dedup
  have hkeys : aggKeys l = aggKeys l' := by
    apply List.eq_of_perm_of_sorted
      ((List.perm_insertionSort keyLE _).trans
        (hdp.trans (List.perm_insertionSort keyLE _).symm))
      (List.sorted_insertionSort keyLE _)
      (List.sorted_insertionSort keyLE _)
  unfold media_regional_mensal
  rw [hkeys]
  apply List.map_congr_left
  intro k _
  have hgv : ∀ g : AggRow → Option ℚ, (groupVals g l k).Perm (groupVals g l' k) :=
    fun g => (hp.filter _).filterMap _
  rw [meanOf_perm (hgv AggRow.temp), meanOf_perm (hgv AggRow.umid)]

/-- Witness for C8: swapping two concrete rows leaves the report unchanged. -/
theorem media_perm_invariant_witness :
    media_regional_mensal [⟨"NE", 1, some 20, some 80⟩, ⟨"S", 2, some 10, none⟩] =
      media_regional_mensal [⟨"S", 2, some 10, none⟩, ⟨"NE", 1, some 20, some 80⟩] :=
  media_perm_invariant _ _
    (List.Perm.swap (⟨"S", 2, some 10, none⟩ : AggRow)
      (⟨"NE", 1, some 20, some 80⟩ : AggRow) [])
